import Mathlib

/-!
Verification development for the document-extraction service
(`app/services/ai_extraction.py`).  The Python service is shallowly embedded:
Python dicts / `json.loads` results become `JValue`, spreadsheet cells become
`CellValue` (numbers as `ℚ`), external services (S3 download, Textract OCR,
OpenAI) become oracle parameters, and each entry point additionally returns a
trace of which internal components it invoked.
-/

set_option maxHeartbeats 1000000
set_option maxRecDepth 40000

namespace Infradyn

/-! ### JSON values and Python dicts -/

/-- A JSON value, as produced by `json.loads` and consumed by the service. -/
inductive JValue where
  | null
  | bool (b : Bool)
  | num (q : ℚ)
  | str (s : String)
  | list (xs : List JValue)
  | obj (fields : List (String × JValue))

/-- A Python dict with string keys, in insertion order. -/
abbrev Dict := List (String × JValue)

/-- Python `d[k]` read access (`None`-free: absent key gives `none`). -/
def lookupKey : Dict → String → Option JValue
  | [], _ => Option.none
  | (k', v) :: t, k => if k' = k then some v else lookupKey t k

/-- Python `d[k] = v`: replace in place when the key exists, append otherwise. -/
def dictSet (d : Dict) (k : String) (v : JValue) : Dict :=
  if (lookupKey d k).isSome then
    d.map (fun p => if p.1 = k then (k, v) else p)
  else d ++ [(k, v)]

/-- Python `sep.join(parts)`. -/
def joinSep (sep : String) : List String → String
  | [] => ""
  | [x] => x
  | x :: y :: t => x ++ sep ++ joinSep sep (y :: t)

/-- Python `s.strip()`: drop whitespace from both ends. -/
def pyStrip (s : String) : String :=
  String.mk (((s.data.dropWhile Char.isWhitespace).reverse.dropWhile Char.isWhitespace).reverse)

/-- Python `s.lower()`. -/
def pyLower (s : String) : String :=
  String.mk (s.data.map Char.toLower)

/-- Python `s[:n]`. -/
def pyTake (n : Nat) (s : String) : String :=
  String.mk (s.data.take n)

/-- Python `s.split(sep)` for a single separator character. -/
def splitChar (sep : Char) : List Char → List (List Char)
  | [] => [[]]
  | c :: t =>
    if c = sep then [] :: splitChar sep t
    else
      match splitChar sep t with
      | [] => [[c]]
      | g :: gs => (c :: g) :: gs

/-! ### Spreadsheet cells (openpyxl cell values) -/

/-- An openpyxl cell value: `None`, a string, an int, a float (embedded as
`ℚ`), or a date (`datetime` values, the ones with `strftime`). -/
inductive CellValue where
  | none
  | str (s : String)
  | int (n : Int)
  | float (q : ℚ)
  | date (y m d : Nat)
deriving DecidableEq

/-- Python truthiness of a cell value (`if cell.value`). -/
def cellTruthy : CellValue → Bool
  | .none => false
  | .str s => !(s == "")
  | .int n => !(n == 0)
  | .float q => decide (q ≠ 0)
  | .date _ _ _ => true

/-- Zero-padded decimal rendering of width `w` (for `strftime`). -/
def padNum (w n : Nat) : String :=
  let s := toString n
  String.mk (List.replicate (w - s.length) '0') ++ s

/-- `val.strftime("%Y-%m-%d")`, also Python's `str()` of a date. -/
def fmtDate (y m d : Nat) : String :=
  padNum 4 y ++ "-" ++ padNum 2 m ++ "-" ++ padNum 2 d

/-- Python `str(value)` for a cell value.  (`str` of a float embedded as `ℚ`
is rendered with `toString`; no claim inspects that rendering.) -/
def pyStr : CellValue → String
  | .none => "None"
  | .str s => s
  | .int n => toString n
  | .float q => toString q
  | .date y m d => fmtDate y m d

/-- A workbook: sheets in order, each a name and its rows of cells.  The
active sheet (`wb.active`) is modelled as the first sheet. -/
abbrev Workbook := List (String × List (List CellValue))

/-! ### `_extract_excel_from_bytes` -/

/-- `str(cell.value) if cell.value else ""`. -/
def cellStr (c : CellValue) : String :=
  if cellTruthy c then pyStr c else ""

/-- One line of sheet text per non-empty row (`" | ".join(row_values)`),
skipping rows whose coerced cells are all empty. -/
def rowLine (row : List CellValue) : Option String :=
  let vals := row.map cellStr
  if vals.any (fun v => !(v == "")) then some (joinSep " | " vals) else Option.none

/-- The text segments one sheet contributes: its header marker line followed
by one line per non-empty row. -/
def sheetLines : String × List (List CellValue) → List String
  | (name, rows) => ("=== Sheet: " ++ name ++ " ===") :: rows.filterMap rowLine

/-- `_extract_excel_from_bytes`, given the decoded workbook (the byte-level
`openpyxl.load_workbook` decode is the external library). -/
def extract_excel_from_bytes (wb : Workbook) : String :=
  joinSep "\n" (wb.map sheetLines).flatten

/-! ### `_extract_milestones_from_excel` (heuristic tabular parser) -/

/-- A milestone dict as built by the heuristic parser. -/
structure Milestone where
  title : String
  description : Option String
  expected_date : Option String
  payment_percentage : ℚ
deriving DecidableEq

/-- JSON encoding of a milestone dict. -/
def milestoneToJ (m : Milestone) : JValue :=
  .obj [("title", .str m.title),
        ("description", match m.description with | some s => .str s | Option.none => .null),
        ("expected_date", match m.expected_date with | some s => .str s | Option.none => .null),
        ("payment_percentage", .num m.payment_percentage)]

/-- `str(cell.value).lower() if cell.value else ""` (header-row scan). -/
def headerCellText (c : CellValue) : String :=
  if cellTruthy c then pyLower (pyStr c) else ""

/-- Python `pat in s` on char lists: `pat` occurs as a contiguous substring. -/
def containsSub (pat : List Char) : List Char → Bool
  | [] => pat.isPrefixOf []
  | c :: t => pat.isPrefixOf (c :: t) || containsSub pat t

/-- Whether a lowered cell text contains one of the header tokens. -/
def hasHeaderToken (v : String) : Bool :=
  containsSub "milestone".data v.data || containsSub "payment".data v.data ||
    containsSub "description".data v.data

/-- Whether a row is recognised as the header row. -/
def rowIsHeader (row : List CellValue) : Bool :=
  row.any (fun c => hasHeaderToken (headerCellText c))

/-- Scan the first 10 rows for the header row; result is its 0-based index
(Python keeps `row_idx + 1`, the 1-based row number). -/
def findHeaderRow (sheet : List (List CellValue)) : Option Nat :=
  (sheet.take 10).findIdx? rowIsHeader

/-- Per-row accumulation state (`milestone = {}` keys). -/
structure RowState where
  title : Option String := Option.none
  pct : Option ℚ := Option.none
  date : Option String := Option.none

/-- `not milestone.get("title")`: absent key or empty-string value. -/
def titleFalsy : Option String → Bool
  | Option.none => true
  | some s => s == ""

def isStrCell : CellValue → Bool
  | .str _ => true
  | _ => false

def getStrCell : CellValue → String
  | .str s => s
  | _ => ""

def isNumCell : CellValue → Bool
  | .int _ => true
  | .float _ => true
  | _ => false

def numVal : CellValue → ℚ
  | .int n => (n : ℚ)
  | .float q => q
  | _ => 0

def isDateCell : CellValue → Bool
  | .date _ _ _ => true
  | _ => false

def dateStr : CellValue → String
  | .date y m d => fmtDate y m d
  | _ => ""

/-- The `if/elif` cell classification inside the data-row loop. -/
def classifyCell (st : RowState) (c : CellValue) : RowState :=
  if c = .none then st
  else
    let valStr := pyStrip (pyStr c)
    if titleFalsy st.title && isStrCell c && decide ((getStrCell c).length > 3) then
      { st with title := some valStr }
    else if isNumCell c && decide (0 < numVal c) && decide (numVal c ≤ 100) then
      if st.pct = Option.none then { st with pct := some (numVal c) } else st
    else if isDateCell c then
      if st.date = Option.none then { st with date := some (dateStr c) } else st
    else st

/-- `milestone.get(k)` truthiness for the emission guard. -/
def optStrTruthy : Option String → Bool
  | Option.none => false
  | some s => !(s == "")

def optRatTruthy : Option ℚ → Bool
  | Option.none => false
  | some q => decide (q ≠ 0)

/-- Parse one data row into a milestone; `none` for skipped rows (all-falsy
rows and rows missing a truthy title or percentage). -/
def parseRow (row : List CellValue) : Option Milestone :=
  if row.any cellTruthy then
    let st := row.foldl classifyCell {}
    if optStrTruthy st.title && optRatTruthy st.pct then
      some { title := st.title.getD "", description := Option.none,
             expected_date := st.date, payment_percentage := st.pct.getD 0 }
    else Option.none
  else Option.none

/-- All milestones parsed from the rows after the header row. -/
def parseDataRows (rows : List (List CellValue)) : List Milestone :=
  rows.filterMap parseRow

/-! ### Pipeline call traces and result envelopes -/

/-- Internal components the orchestrator can invoke (each performs the
network I/O of its stage). -/
inductive Call where
  | extractExcel
  | extractWord
  | extractPdf
  | extractImage
  | extractMilestonesExcel
  | parsePo
  | parseInvoice
  | parseMilestones
deriving DecidableEq

/-- The uniform `{success, data | error}` result envelope. -/
inductive Envelope where
  | success (data : Dict)
  | failure (error : String)

/-- `_extract_milestones_from_excel`: `none` for the workbook models a
download/load exception (caught, `[]` returned); an empty workbook models
`wb.active is None`.  Returns the milestones JSON and the LLM calls made. -/
def extract_milestones_from_excel (wb? : Option Workbook) (llmM : String → JValue) :
    JValue × List Call :=
  match wb? with
  | Option.none => (.list [], [])
  | some [] => (.list [], [])
  | some ((name, sheet) :: rest) =>
    match findHeaderRow sheet with
    | Option.none => (llmM (extract_excel_from_bytes ((name, sheet) :: rest)), [.parseMilestones])
    | some idx => (.list ((parseDataRows (sheet.drop (idx + 1))).map milestoneToJ), [])

/-! ### Byte-level extractors (`_extract_*_from_bytes`) -/

/-- Raw uploaded/downloaded bytes, represented by how each decoding library
reads them: `none` means that library raises on these bytes.  `asWord` is the
paragraph texts, `asPdf` the per-page `extract_text()` results. -/
structure FileBytes where
  asExcel : Option Workbook
  asWord : Option (List String)
  asPdf : Option (List (Option String))

/-- Empty byte content: all three decoding libraries raise on it. -/
def emptyFileBytes : FileBytes := ⟨Option.none, Option.none, Option.none⟩

/-- `_extract_excel_from_bytes` on raw bytes (exception → `None`). -/
def extractExcelBytes (fb : FileBytes) : Option String :=
  fb.asExcel.map extract_excel_from_bytes

/-- `_extract_word_from_bytes`: non-empty-after-strip paragraphs joined with
newlines (exception → `None`). -/
def extractWordBytes (fb : FileBytes) : Option String :=
  fb.asWord.map (fun paras => joinSep "\n" (paras.filter (fun p => !(pyStrip p == ""))))

/-- `_extract_pdf_from_bytes`: truthy page texts joined with blank lines
(exception → `None`). -/
def extractPdfBytes (fb : FileBytes) : Option String :=
  fb.asPdf.map (fun pages =>
    joinSep "\n\n" (pages.filterMap (fun pt =>
      match pt with
      | some s => if s == "" then Option.none else some s
      | Option.none => Option.none)))

/-! ### `_extract_pdf` (OCR fallback decider) -/

/-- Which path `_extract_pdf` took and what it returned. -/
inductive PdfOutcome where
  | direct (text : String)
  | viaOcr (res : Option String)
  | fetchFailed
deriving DecidableEq

/-- `_extract_pdf`: download (`fetch`), try pdfplumber, keep the direct text
only when it is truthy and its stripped length exceeds 500, else fall back to
the Textract job client (whose result is the `ocr` oracle). -/
def extract_pdf (fetch : Except String FileBytes) (ocr : Option String) : PdfOutcome :=
  match fetch with
  | .error _ => .fetchFailed
  | .ok fb =>
    match extractPdfBytes fb with
    | some t => if !(t == "") && decide ((pyStrip t).length > 500) then .direct t else .viaOcr ocr
    | Option.none => .viaOcr ocr

/-! ### `_extract_pdf_with_textract` (async OCR job client) -/

/-- A Textract result block. -/
structure TBlock where
  blockType : String
  text : String
deriving DecidableEq

/-- One poll response: on success it carries the first response's blocks and
the continuation pages reachable through `NextToken`. -/
inductive PollResponse where
  | running
  | failed
  | succeeded (first : List TBlock) (morePages : List (List TBlock))
deriving DecidableEq

/-- Externally visible actions of the job client. -/
inductive TAction where
  | submit
  | sleep (units : Nat)
  | poll
  | getPage
deriving DecidableEq

def countSubmit : List TAction → Nat
  | [] => 0
  | .submit :: t => countSubmit t + 1
  | _ :: t => countSubmit t

def countPoll : List TAction → Nat
  | [] => 0
  | .poll :: t => countPoll t + 1
  | _ :: t => countPoll t

def countGetPage : List TAction → Nat
  | [] => 0
  | .getPage :: t => countGetPage t + 1
  | _ :: t => countGetPage t

def isSleepOrPoll : TAction → Bool
  | .sleep _ => true
  | .poll => true
  | _ => false

/-- The LINE-block text extraction: keep blocks whose `BlockType` is `LINE`
and join their `Text` with newlines, in order. -/
def textFromBlocks (bs : List TBlock) : String :=
  joinSep "\n" ((bs.filter (fun b => b.blockType == "LINE")).map TBlock.text)

/-- The poll loop: each iteration sleeps 2 time-units then polls job status
at the current attempt index; `SUCCEEDED` drains the pagination cursor (one
`getPage` per continuation page), `FAILED` and budget exhaustion yield no
text. -/
def pollLoop (polls : Nat → PollResponse) : Nat → Nat → List TAction × Option String
  | _, 0 => ([], Option.none)
  | attempt, budget + 1 =>
    match polls attempt with
    | .running =>
      let r := pollLoop polls (attempt + 1) budget
      (TAction.sleep 2 :: TAction.poll :: r.1, r.2)
    | .failed => ([TAction.sleep 2, TAction.poll], Option.none)
    | .succeeded first pages =>
      (TAction.sleep 2 :: TAction.poll :: pages.map (fun _ => TAction.getPage),
        some (textFromBlocks (first ++ pages.flatten)))

/-- `_extract_pdf_with_textract`: one job submission, then at most 60 polls. -/
def extract_pdf_with_textract (polls : Nat → PollResponse) : List TAction × Option String :=
  let r := pollLoop polls 0 60
  (TAction.submit :: r.1, r.2)

/-! ### URL helpers (`_get_extension`, `_parse_s3_key`, `_download_file`) -/

/-- Last index of a character in a char list. -/
def lastIdxOf (c : Char) : List Char → Option Nat
  | [] => Option.none
  | x :: xs =>
    match lastIdxOf c xs with
    | some i => some (i + 1)
    | Option.none => if x = c then some 0 else Option.none

/-- `PurePath(p).name`: the final path component ("" and "." components are
dropped, as pathlib normalises them away). -/
def pathName (p : String) : String :=
  ((((splitChar '/' p.data).map String.mk).filter
      (fun s => !(s == "") && !(s == "."))).getLast?).getD ""

/-- `PurePath(p).suffix`: the extension of the final component, empty unless
the last dot is at an interior position of the name. -/
def pathSuffix (p : String) : String :=
  let name := (pathName p).data
  match lastIdxOf '.' name with
  | some i => if 0 < i ∧ i < name.length - 1 then String.mk (name.drop i) else ""
  | Option.none => ""

/-- `_get_extension`: strip the query string, then the lower-cased suffix. -/
def getExtension (url : String) : String :=
  pyLower (pathSuffix (String.mk (url.data.takeWhile (fun ch => !(ch == '?')))))

/-- `rest.split("/", 1)`: split at the first occurrence of `sep`, when any. -/
def splitOnce (sep : Char) : List Char → Option (List Char × List Char)
  | [] => Option.none
  | x :: xs =>
    if x = sep then some ([], xs)
    else
      match splitOnce sep xs with
      | some (a, b) => some (x :: a, b)
      | Option.none => Option.none

/-- The char list right after the first occurrence of `pat`, when any. -/
def afterSub (pat : List Char) : List Char → Option (List Char)
  | [] => if pat.isPrefixOf ([] : List Char) then some [] else Option.none
  | c :: t =>
    if pat.isPrefixOf (c :: t) then some ((c :: t).drop pat.length)
    else afterSub pat t

/-- `urlparse(url).path` chars: everything from the first `/` after the
`scheme://authority` part. -/
def urlPathChars (cs : List Char) : List Char :=
  match afterSub "://".data cs with
  | some rest => rest.dropWhile (fun ch => !(ch == '/'))
  | Option.none => cs

/-- `urlparse(url).hostname` chars: the authority, port stripped, lowered. -/
def hostChars (cs : List Char) : List Char :=
  match afterSub "://".data cs with
  | some rest => ((rest.takeWhile (fun ch => !(ch == '/'))).takeWhile (fun ch => !(ch == ':'))).map Char.toLower
  | Option.none => []

/-- `parsed.hostname.split(".")[0]`: the first dotted label of the host. -/
def hostFirstLabel (url : String) : String :=
  String.mk ((hostChars url.data).takeWhile (fun ch => !(ch == '.')))

/-- `_parse_s3_key`: for `s3://bucket/key` keep only the part after the first
slash following the scheme; for virtual-hosted S3 HTTPS URLs the path without
leading slashes; otherwise the locator itself is assumed to be a key. -/
def parseS3Key (url : String) : String :=
  if "s3://".data.isPrefixOf url.data then
    match splitOnce '/' (url.data.drop 5) with
    | some (_, key) => String.mk key
    | Option.none => ""
  else if containsSub "s3.amazonaws.com".data url.data then
    String.mk ((urlPathChars url.data).dropWhile (fun ch => ch == '/'))
  else url

/-- The storage request `_download_file` issues. -/
inductive DownloadReq where
  | s3Get (bucket key : String)
  | httpGet (url : String)
deriving DecidableEq

/-- `_download_file`: `s3://` locators are fetched from the single configured
bucket with `_parse_s3_key`; `https://bucket.s3.region.amazonaws.com/key`
URLs use the bucket parsed from the hostname; anything else is a plain HTTP
download. -/
def downloadRequest (configuredBucket : String) (url : String) : DownloadReq :=
  if "s3://".data.isPrefixOf url.data then
    .s3Get configuredBucket (parseS3Key url)
  else if containsSub "s3.".data url.data && containsSub "amazonaws.com".data url.data then
    .s3Get (hostFirstLabel url)
      (String.mk ((urlPathChars url.data).dropWhile (fun ch => ch == '/')))
  else .httpGet url

/-- The `(Bucket, Name)` pair `_extract_image` passes to single-shot OCR. -/
def imageOcrRequest (configuredBucket : String) (url : String) : String × String :=
  (configuredBucket, parseS3Key url)

/-! ### The pipeline orchestrator

The four entry points, with the external world as oracles: for a given
locator, each `_extract_*` helper's final `Optional[str]` result (those
helpers catch their own exceptions), and each `_parse_*_with_gpt` helper's
result (those helpers return a fallback value instead of raising — except
that `_parse_milestones_with_gpt` builds its prompt before its `try`, so a
`None` argument raises a `TypeError` out of it). -/

structure Env where
  excelText : Option String
  wordText : Option String
  pdfText : Option String
  imageText : Option String
  excelWorkbook : Option Workbook
  llmPo : String → Dict
  llmInvoice : String → Dict
  llmMilestones : String → JValue

/-- The shared tail of `extract_purchase_order` / `extract_invoice`: fail on
falsy text, otherwise parse with the LLM and attach the truncated raw text. -/
def finishParse (parse : String → Dict) (parseCall : Call) (raw : Option String)
    (tr : List Call) : Envelope × List Call :=
  match raw with
  | Option.none => (.failure "Could not extract text from document", tr)
  | some t =>
    if t = "" then (.failure "Could not extract text from document", tr)
    else (.success (dictSet (parse t) "raw_text" (.str (pyTake 5000 t))), tr ++ [parseCall])

/-- `extract_purchase_order`. -/
def extract_purchase_order (env : Env) (url : String) : Envelope × List Call :=
  let ext := getExtension url
  if ext ∈ ([".xlsx", ".xls"] : List String) then
    finishParse env.llmPo .parsePo env.excelText [.extractExcel]
  else if ext ∈ ([".docx", ".doc"] : List String) then
    finishParse env.llmPo .parsePo env.wordText [.extractWord]
  else if ext = ".pdf" then
    finishParse env.llmPo .parsePo env.pdfText [.extractPdf]
  else if ext ∈ ([".png", ".jpg", ".jpeg"] : List String) then
    finishParse env.llmPo .parsePo env.imageText [.extractImage]
  else (.failure ("Unsupported file type: " ++ ext), [])

/-- `extract_invoice`. -/
def extract_invoice (env : Env) (url : String) : Envelope × List Call :=
  let ext := getExtension url
  if ext ∈ ([".xlsx", ".xls"] : List String) then
    finishParse env.llmInvoice .parseInvoice env.excelText [.extractExcel]
  else if ext ∈ ([".docx", ".doc"] : List String) then
    finishParse env.llmInvoice .parseInvoice env.wordText [.extractWord]
  else if ext = ".pdf" then
    finishParse env.llmInvoice .parseInvoice env.pdfText [.extractPdf]
  else if ext ∈ ([".png", ".jpg", ".jpeg"] : List String) then
    finishParse env.llmInvoice .parseInvoice env.imageText [.extractImage]
  else (.failure ("Unsupported file type: " ++ ext), [])

/-- `extract_milestones`: no empty-text check exists on either branch; on the
PDF branch a `None` text reaches `raw_text[:15000]` in the prompt f-string,
whose `TypeError` is caught by the entry point's handler. -/
def extract_milestones (env : Env) (url : String) : Envelope × List Call :=
  let ext := getExtension url
  if ext ∈ ([".xlsx", ".xls"] : List String) then
    let r := extract_milestones_from_excel env.excelWorkbook env.llmMilestones
    (.success [("milestones", r.1)], .extractMilestonesExcel :: r.2)
  else if ext = ".pdf" then
    match env.pdfText with
    | Option.none => (.failure "'NoneType' object is not subscriptable", [.extractPdf, .parseMilestones])
    | some t => (.success [("milestones", env.llmMilestones t)], [.extractPdf, .parseMilestones])
  else (.failure ("Unsupported file type for milestones: " ++ ext), [])

/-- The tail of `extract_from_bytes` after text extraction. -/
def fromBytesAfter (env : Env) (raw : Option String) (docType : String) :
    Envelope × List Call :=
  match raw with
  | Option.none => (.failure "Could not extract text from document", [])
  | some t =>
    if t = "" then (.failure "Could not extract text from document", [])
    else if docType = "purchase_order" then
      (.success (dictSet (env.llmPo t) "raw_text" (.str (pyTake 5000 t))), [.parsePo])
    else if docType = "invoice" then
      (.success (dictSet (env.llmInvoice t) "raw_text" (.str (pyTake 5000 t))), [.parseInvoice])
    else if docType = "milestone" then
      (.success (dictSet [("milestones", env.llmMilestones t)] "raw_text" (.str (pyTake 5000 t))),
        [.parseMilestones])
    else (.failure ("Unknown document type: " ++ docType), [])

/-- `extract_from_bytes`: extension from the filename (no query stripping),
then the byte-level extractor, then the document-type dispatch. -/
def extract_from_bytes (env : Env) (fb : FileBytes) (filename docType : String) :
    Envelope × List Call :=
  let ext := pyLower (pathSuffix filename)
  if ext ∈ ([".xlsx", ".xls"] : List String) then fromBytesAfter env (extractExcelBytes fb) docType
  else if ext ∈ ([".docx", ".doc"] : List String) then fromBytesAfter env (extractWordBytes fb) docType
  else if ext = ".pdf" then fromBytesAfter env (extractPdfBytes fb) docType
  else (.failure ("Unsupported file type: " ++ ext), [])

/-- The raw text the URL-based entry points obtain for a given extension. -/
def selectedRaw (env : Env) (ext : String) : Option String :=
  if ext ∈ ([".xlsx", ".xls"] : List String) then env.excelText
  else if ext ∈ ([".docx", ".doc"] : List String) then env.wordText
  else if ext = ".pdf" then env.pdfText
  else if ext ∈ ([".png", ".jpg", ".jpeg"] : List String) then env.imageText
  else Option.none

/-- The raw text `extract_from_bytes` obtains for a given extension. -/
def selectedBytesRaw (fb : FileBytes) (ext : String) : Option String :=
  if ext ∈ ([".xlsx", ".xls"] : List String) then extractExcelBytes fb
  else if ext ∈ ([".docx", ".doc"] : List String) then extractWordBytes fb
  else if ext = ".pdf" then extractPdfBytes fb
  else Option.none

/-- Python falsiness of an `Optional[str]` (`if not raw_text`). -/
def rawFalsy (r : Option String) : Prop := r = Option.none ∨ r = some ""

/-! ### `_parse_po_with_gpt` (structured extraction client) -/

/-- Strip a leading <code>```json</code> fence marker with trailing
whitespace, then a trailing <code>```</code> with preceding whitespace. -/
def stripCodeFences (c : String) : String :=
  let c1 :=
    if "```json".data.isPrefixOf c.data then
      String.mk ((c.data.drop 7).dropWhile Char.isWhitespace)
    else c
  if "```".data.reverse.isPrefixOf c1.data.reverse then
    String.mk (((c1.data.reverse.drop 3).dropWhile Char.isWhitespace).reverse)
  else c1

/-- The explicitly-null-filled fallback purchase-order object. -/
def poFallbackFields : Dict :=
  [("po_number", .null), ("vendor_name", .null), ("date", .null),
   ("total_value", .null), ("currency", .null),
   ("milestones", .list []), ("boq_items", .list []),
   ("confidence", .num 0)]

/-- `_parse_po_with_gpt`: the LLM call may fail (`Except.error`); a returned
completion is fence-stripped and JSON-parsed (`jsonParse` is the `json.loads`
oracle, `none` meaning it raises); any failure yields the fallback object. -/
def parse_po_with_gpt (llm : Except String String) (jsonParse : String → Option JValue) :
    JValue :=
  match llm with
  | .error _ => JValue.obj poFallbackFields
  | .ok content =>
    match jsonParse (stripCodeFences content) with
    | some j => j
    | Option.none => JValue.obj poFallbackFields

/-! ### Concrete inputs used by the witnesses and counterexamples -/

/-- An environment whose extractors all fail and whose LLM oracles return
trivial values. -/
def envEmpty : Env :=
  { excelText := Option.none, wordText := Option.none, pdfText := Option.none,
    imageText := Option.none, excelWorkbook := Option.none,
    llmPo := fun _ => [], llmInvoice := fun _ => [],
    llmMilestones := fun _ => JValue.list [] }

/-- Environment for the milestone counterexamples: PDF extraction yields no
text; Excel extraction yields a one-milestone sheet. -/
def envMilestones : Env :=
  { envEmpty with
    excelWorkbook := some [("Sheet1",
      [[CellValue.str "Milestone Description", CellValue.str "Payment %"],
       [CellValue.str "Mobilization", CellValue.int 10]])] }

/-- Environment for the raw-text witness: Excel extraction succeeds. -/
def envPoText : Env :=
  { envEmpty with excelText := some "PO text",
                  llmPo := fun _ => [("po_number", JValue.null)] }

/-- The worked heuristic-parser sheet from the specification. -/
def sheetC4 : List (List CellValue) :=
  [[CellValue.str "Milestone Description", CellValue.str "Payment %"],
   [CellValue.str "Mobilization", CellValue.int 10, CellValue.date 2024 1 15],
   [CellValue.str "Final Delivery", CellValue.int 90, CellValue.date 2024 12 1]]

/-- 500 non-whitespace characters: a direct-extraction text whose stripped
length is exactly the threshold. -/
def text500 : String := String.mk (List.replicate 500 'a')

/-- PDF bytes whose pdfplumber extraction is exactly `text500`. -/
def pdfBytes500 : FileBytes :=
  { asExcel := Option.none, asWord := Option.none, asPdf := some [some text500] }

/-- 501 non-whitespace characters: just above the threshold. -/
def text501 : String := String.mk (List.replicate 501 'a')

/-- PDF bytes whose pdfplumber extraction is exactly `text501`. -/
def pdfBytes501 : FileBytes :=
  { asExcel := Option.none, asWord := Option.none, asPdf := some [some text501] }

/-- A poll oracle that succeeds on the second poll with one first-response
block list and two continuation pages. -/
def polls7 : Nat → PollResponse := fun n =>
  match n with
  | 1 => PollResponse.succeeded
      [⟨"LINE", "Invoice 42"⟩, ⟨"WORD", "Invoice"⟩]
      [[⟨"LINE", "Total 500"⟩], [⟨"TABLE", "t1"⟩, ⟨"LINE", "Due 2024-01-01"⟩]]
  | _ => PollResponse.running

/-! ## Helper lemmas -/

theorem strData_append (s t : String) : (s ++ t).data = s.data ++ t.data := by
  cases s
  cases t
  rfl

theorem infix_of_mem_joinSep (sep : String) :
    ∀ (xs : List String) (x : String), x ∈ xs → x.data <:+: (joinSep sep xs).data := by
  intro xs
  induction xs with
  | nil => intro x hx; cases hx
  | cons a tail ih =>
    intro x hx
    cases tail with
    | nil =>
      have hxa : x = a := by simpa using hx
      subst hxa
      exact List.infix_refl _
    | cons b t =>
      rcases List.mem_cons.mp hx with hxa | hxt
      · subst hxa
        refine ⟨[], (sep ++ joinSep sep (b :: t)).data, ?_⟩
        show [] ++ x.data ++ (sep ++ joinSep sep (b :: t)).data = (joinSep sep (x :: b :: t)).data
        simp [joinSep, strData_append]
      · have h2 := ih x hxt
        have h3 : (joinSep sep (b :: t)).data <:+: (joinSep sep (a :: b :: t)).data := by
          refine ⟨(a ++ sep).data, [], ?_⟩
          show (a ++ sep).data ++ (joinSep sep (b :: t)).data ++ [] = _
          simp [joinSep, strData_append]
        exact h2.trans h3

theorem lookupKey_append_new (d : Dict) (k : String) (v : JValue)
    (h : lookupKey d k = Option.none) : lookupKey (d ++ [(k, v)]) k = some v := by
  induction d with
  | nil => simp [lookupKey]
  | cons p t ih =>
    by_cases hp : p.1 = k
    · exfalso
      obtain ⟨k', v'⟩ := p
      simp only [lookupKey] at h
      rw [if_pos hp] at h
      cases h
    · obtain ⟨k', v'⟩ := p
      simp only [lookupKey] at h ⊢
      rw [if_neg hp] at h ⊢
      exact ih h

theorem lookupKey_map_replace (d : Dict) (k : String) (v : JValue)
    (h : (lookupKey d k).isSome = true) :
    lookupKey (d.map (fun p => if p.1 = k then (k, v) else p)) k = some v := by
  induction d with
  | nil => simp [lookupKey] at h
  | cons p t ih =>
    obtain ⟨k', v'⟩ := p
    simp only [List.map_cons]
    by_cases hp : k' = k
    · have hh : (if (k', v').1 = k then (k, v) else (k', v')) = (k, v) := if_pos hp
      rw [hh]
      simp [lookupKey]
    · have hh : (if (k', v').1 = k then (k, v) else (k', v')) = (k', v') := if_neg hp
      rw [hh]
      simp only [lookupKey]
      rw [if_neg hp]
      apply ih
      simp only [lookupKey] at h
      rw [if_neg hp] at h
      exact h

theorem lookupKey_dictSet (d : Dict) (k : String) (v : JValue) :
    lookupKey (dictSet d k v) k = some v := by
  unfold dictSet
  by_cases h : (lookupKey d k).isSome
  · rw [if_pos h]
    exact lookupKey_map_replace d k v h
  · rw [if_neg h]
    refine lookupKey_append_new d k v ?_
    cases hk : lookupKey d k with
    | none => rfl
    | some w => rw [hk] at h; simp at h

theorem countSubmit_map_getPage (pages : List (List TBlock)) :
    countSubmit (pages.map (fun _ => TAction.getPage)) = 0 := by
  induction pages with
  | nil => rfl
  | cons p t ih => simpa [countSubmit] using ih

theorem countPoll_map_getPage (pages : List (List TBlock)) :
    countPoll (pages.map (fun _ => TAction.getPage)) = 0 := by
  induction pages with
  | nil => rfl
  | cons p t ih => simpa [countPoll] using ih

theorem countGetPage_map_getPage (pages : List (List TBlock)) :
    countGetPage (pages.map (fun _ => TAction.getPage)) = pages.length := by
  induction pages with
  | nil => rfl
  | cons p t ih => simpa [countGetPage] using ih

theorem filter_sleepPoll_map_getPage (pages : List (List TBlock)) :
    (pages.map (fun _ => TAction.getPage)).filter isSleepOrPoll = [] := by
  induction pages with
  | nil => rfl
  | cons p t ih => simp [List.filter, isSleepOrPoll, ih]

theorem pollLoop_count_submit (polls : Nat → PollResponse) :
    ∀ (budget attempt : Nat), countSubmit (pollLoop polls attempt budget).1 = 0 := by
  intro budget
  induction budget with
  | zero => intro attempt; rfl
  | succ b ih =>
    intro attempt
    unfold pollLoop
    cases polls attempt with
    | running => simpa [countSubmit] using ih (attempt + 1)
    | failed => rfl
    | succeeded first pages => simpa [countSubmit] using countSubmit_map_getPage pages

theorem pollLoop_count_poll_le (polls : Nat → PollResponse) :
    ∀ (budget attempt : Nat), countPoll (pollLoop polls attempt budget).1 ≤ budget := by
  intro budget
  induction budget with
  | zero => intro attempt; exact Nat.le_refl 0
  | succ b ih =>
    intro attempt
    unfold pollLoop
    cases polls attempt with
    | running =>
      simp only [countPoll]
      exact Nat.succ_le_succ (ih (attempt + 1))
    | failed => simp [countPoll]
    | succeeded first pages =>
      simp only [countPoll, countPoll_map_getPage]
      exact Nat.succ_le_succ (Nat.zero_le b)

theorem pollLoop_sleep_shape (polls : Nat → PollResponse) :
    ∀ (budget attempt : Nat),
      (pollLoop polls attempt budget).1.filter isSleepOrPoll
        = (List.replicate (countPoll (pollLoop polls attempt budget).1)
            [TAction.sleep 2, TAction.poll]).flatten := by
  intro budget
  induction budget with
  | zero => intro attempt; rfl
  | succ b ih =>
    intro attempt
    unfold pollLoop
    cases polls attempt with
    | running =>
      simp only [List.filter, isSleepOrPoll, countPoll, List.replicate, List.flatten]
      simpa using ih (attempt + 1)
    | failed => rfl
    | succeeded first pages =>
      simp only [List.filter, isSleepOrPoll, countPoll, countPoll_map_getPage,
        filter_sleepPoll_map_getPage, List.replicate, List.flatten]
      rfl

theorem pollLoop_all_running (polls : Nat → PollResponse) :
    ∀ (budget attempt : Nat),
      (∀ i, i < budget → polls (attempt + i) = PollResponse.running) →
      (pollLoop polls attempt budget).2 = Option.none ∧
        countPoll (pollLoop polls attempt budget).1 = budget := by
  intro budget
  induction budget with
  | zero => intro attempt _; exact ⟨rfl, rfl⟩
  | succ b ih =>
    intro attempt h
    have h0 : polls attempt = PollResponse.running := by
      have := h 0 (Nat.succ_pos b)
      simpa using this
    have hrest : ∀ i, i < b → polls (attempt + 1 + i) = PollResponse.running := by
      intro i hi
      have := h (i + 1) (Nat.succ_lt_succ hi)
      rwa [show attempt + (i + 1) = attempt + 1 + i by omega] at this
    obtain ⟨h1, h2⟩ := ih (attempt + 1) hrest
    unfold pollLoop
    rw [h0]
    exact ⟨h1, by simpa [countPoll] using h2⟩

theorem pollLoop_succeeds (polls : Nat → PollResponse) (first : List TBlock)
    (pages : List (List TBlock)) :
    ∀ (k attempt budget : Nat), k < budget →
      (∀ i, i < k → polls (attempt + i) = PollResponse.running) →
      polls (attempt + k) = PollResponse.succeeded first pages →
      (pollLoop polls attempt budget).2 = some (textFromBlocks (first ++ pages.flatten)) ∧
        countGetPage (pollLoop polls attempt budget).1 = pages.length := by
  intro k
  induction k with
  | zero =>
    intro attempt budget hk _ hsucc
    cases budget with
    | zero => omega
    | succ b =>
      rw [Nat.add_zero] at hsucc
      unfold pollLoop
      rw [hsucc]
      refine ⟨rfl, ?_⟩
      simpa [countGetPage] using countGetPage_map_getPage pages
  | succ j ih =>
    intro attempt budget hk hrun hsucc
    cases budget with
    | zero => omega
    | succ b =>
      have h0 : polls attempt = PollResponse.running := by
        have := hrun 0 (Nat.succ_pos j)
        simpa using this
      have hrest : ∀ i, i < j → polls (attempt + 1 + i) = PollResponse.running := by
        intro i hi
        have := hrun (i + 1) (Nat.succ_lt_succ hi)
        rwa [show attempt + (i + 1) = attempt + 1 + i by omega] at this
      have hsucc' : polls (attempt + 1 + j) = PollResponse.succeeded first pages := by
        rwa [show attempt + (j + 1) = attempt + 1 + j by omega] at hsucc
      obtain ⟨h1, h2⟩ := ih (attempt + 1) b (by omega) hrest hsucc'
      unfold pollLoop
      rw [h0]
      exact ⟨h1, by simpa [countGetPage] using h2⟩

/-! ## Claim theorems -/

/-- C1: the claim (and `_extract_pdf`'s own docstring) accept the direct
pdfplumber text whenever its stripped length is at least 500; the code
requires strictly more than 500, so a PDF whose direct text strips to exactly
500 characters is sent to the OCR job client although the claim says the
direct text is returned and OCR is never invoked.  Lengths 501 and 499
behave as the claim describes. -/
theorem extract_pdf_at_exactly_500_falls_back_to_ocr :
    (pyStrip text500).length = 500 ∧
    extract_pdf (Except.ok pdfBytes500) (some "ocr result")
      = PdfOutcome.viaOcr (some "ocr result") ∧
    (pyStrip text501).length = 501 ∧
    extract_pdf (Except.ok pdfBytes501) (some "ocr result")
      = PdfOutcome.direct text501 :=
  ⟨rfl, rfl, rfl, rfl⟩

/-- C3: whenever the LLM call fails or its fence-stripped completion is not
valid JSON, `_parse_po_with_gpt` returns (never raises) the fallback
purchase-order object: its scalar fields all null, its milestone and BOQ
lists empty, its confidence 0.0. -/
theorem parse_po_malformed_returns_fallback (llm : Except String String)
    (jsonParse : String → Option JValue)
    (h : (∃ e, llm = Except.error e) ∨
      ∃ c, llm = Except.ok c ∧ jsonParse (stripCodeFences c) = Option.none) :
    parse_po_with_gpt llm jsonParse = JValue.obj poFallbackFields ∧
    lookupKey poFallbackFields "po_number" = some JValue.null ∧
    lookupKey poFallbackFields "vendor_name" = some JValue.null ∧
    lookupKey poFallbackFields "date" = some JValue.null ∧
    lookupKey poFallbackFields "total_value" = some JValue.null ∧
    lookupKey poFallbackFields "currency" = some JValue.null ∧
    lookupKey poFallbackFields "milestones" = some (JValue.list []) ∧
    lookupKey poFallbackFields "boq_items" = some (JValue.list []) ∧
    lookupKey poFallbackFields "confidence" = some (JValue.num 0) := by
  refine ⟨?_, rfl, rfl, rfl, rfl, rfl, rfl, rfl, rfl⟩
  rcases h with ⟨e, he⟩ | ⟨c, hc, hp⟩
  · subst he; rfl
  · subst hc
    show (match jsonParse (stripCodeFences c) with
          | some j => j
          | Option.none => JValue.obj poFallbackFields) = JValue.obj poFallbackFields
    rw [hp]

/-- Witness for C3: a non-JSON completion yields the fallback object. -/
theorem parse_po_malformed_returns_fallback_witness :
    parse_po_with_gpt (Except.ok "I am not JSON") (fun _ => Option.none)
      = JValue.obj poFallbackFields :=
  (parse_po_malformed_returns_fallback (Except.ok "I am not JSON") (fun _ => Option.none)
    (Or.inr ⟨"I am not JSON", rfl, rfl⟩)).1

/-- C4: on the worked sheet — header row containing "Milestone Description"
and "Payment %", data rows ("Mobilization", 10, 2024-01-15) and
("Final Delivery", 90, 2024-12-01) — the heuristic parser emits exactly the
two milestones with those titles, percentages 10.0/90.0 and dates
2024-01-15/2024-12-01, with an empty call trace: the LLM oracle is never
invoked, whatever it is. -/
theorem milestones_heuristic_example (llmM : String → JValue) :
    extract_milestones_from_excel (some [("Sheet1", sheetC4)]) llmM
      = (JValue.list
          [milestoneToJ ⟨"Mobilization", Option.none, some "2024-01-15", 10⟩,
           milestoneToJ ⟨"Final Delivery", Option.none, some "2024-12-01", 90⟩], []) := rfl

/-- Witness for C4 at a concrete LLM oracle. -/
theorem milestones_heuristic_example_witness :
    extract_milestones_from_excel (some [("Sheet1", sheetC4)]) (fun _ => JValue.null)
      = (JValue.list
          [milestoneToJ ⟨"Mobilization", Option.none, some "2024-01-15", 10⟩,
           milestoneToJ ⟨"Final Delivery", Option.none, some "2024-12-01", 90⟩], []) :=
  milestones_heuristic_example (fun _ => JValue.null)

/-- C6: within one OCR job client call there is exactly one submission, at
most 60 polls, a fixed 2-unit sleep immediately before every poll, and when
the first 60 polls all report RUNNING the call returns no text (timeout)
after exactly 60 polls, with still just the one submission. -/
theorem textract_poll_budget (polls : Nat → PollResponse) :
    countSubmit (extract_pdf_with_textract polls).1 = 1 ∧
    countPoll (extract_pdf_with_textract polls).1 ≤ 60 ∧
    (extract_pdf_with_textract polls).1.filter isSleepOrPoll
      = (List.replicate (countPoll (extract_pdf_with_textract polls).1)
          [TAction.sleep 2, TAction.poll]).flatten ∧
    ((∀ i, i < 60 → polls i = PollResponse.running) →
      (extract_pdf_with_textract polls).2 = Option.none ∧
        countPoll (extract_pdf_with_textract polls).1 = 60) := by
  refine ⟨?_, ?_, ?_, ?_⟩
  · show countSubmit (TAction.submit :: (pollLoop polls 0 60).1) = 1
    simp [countSubmit, pollLoop_count_submit polls 60 0]
  · show countPoll (TAction.submit :: (pollLoop polls 0 60).1) ≤ 60
    simpa [countPoll] using pollLoop_count_poll_le polls 60 0
  · show (TAction.submit :: (pollLoop polls 0 60).1).filter isSleepOrPoll = _
    simpa [List.filter, isSleepOrPoll, countPoll] using pollLoop_sleep_shape polls 60 0
  · intro h
    have h' : ∀ i, i < 60 → polls (0 + i) = PollResponse.running := by
      intro i hi
      simpa using h i hi
    obtain ⟨h1, h2⟩ := pollLoop_all_running polls 60 0 h'
    exact ⟨h1, by simpa [countPoll] using h2⟩

/-- Witness for C6: an always-RUNNING job times out after 60 polls and one
submission. -/
theorem textract_poll_budget_witness :
    (extract_pdf_with_textract (fun _ => PollResponse.running)).2 = Option.none ∧
    countPoll (extract_pdf_with_textract (fun _ => PollResponse.running)).1 = 60 ∧
    countSubmit (extract_pdf_with_textract (fun _ => PollResponse.running)).1 = 1 := by
  obtain ⟨h1, _, _, h4⟩ := textract_poll_budget (fun _ => PollResponse.running)
  obtain ⟨ha, hb⟩ := h4 (fun _ _ => rfl)
  exact ⟨ha, hb, h1⟩

/-- C7: when poll `k` reports SUCCEEDED (earlier polls RUNNING, within the
budget), the client drains every continuation page (one page fetch per
cursor) and returns exactly the `Text` of the `LINE` blocks of all
accumulated pages, joined with newlines in the order returned. -/
theorem textract_success_collects_pages (polls : Nat → PollResponse)
    (first : List TBlock) (pages : List (List TBlock)) (k : Nat)
    (hk : k < 60) (hrun : ∀ i, i < k → polls i = PollResponse.running)
    (hsucc : polls k = PollResponse.succeeded first pages) :
    (extract_pdf_with_textract polls).2
      = some (joinSep "\n" (((first ++ pages.flatten).filter
          (fun b => b.blockType == "LINE")).map TBlock.text)) ∧
    countGetPage (extract_pdf_with_textract polls).1 = pages.length := by
  have hrun' : ∀ i, i < k → polls (0 + i) = PollResponse.running := by
    intro i hi
    simpa using hrun i hi
  have hsucc' : polls (0 + k) = PollResponse.succeeded first pages := by
    simpa using hsucc
  obtain ⟨h1, h2⟩ := pollLoop_succeeds polls first pages k 0 60 hk hrun' hsucc'
  refine ⟨h1, ?_⟩
  show countGetPage (TAction.submit :: (pollLoop polls 0 60).1) = pages.length
  simpa [countGetPage] using h2

/-- Witness for C7: success on the second poll with two continuation pages
yields the three LINE texts joined with newlines and two page fetches. -/
theorem textract_success_collects_pages_witness :
    (extract_pdf_with_textract polls7).2 = some "Invoice 42\nTotal 500\nDue 2024-01-01" ∧
    countGetPage (extract_pdf_with_textract polls7).1 = 2 := by
  obtain ⟨h1, h2⟩ := textract_success_collects_pages polls7
    [⟨"LINE", "Invoice 42"⟩, ⟨"WORD", "Invoice"⟩]
    [[⟨"LINE", "Total 500"⟩], [⟨"TABLE", "t1"⟩, ⟨"LINE", "Due 2024-01-01"⟩]] 1
    (by omega)
    (fun i hi => by
      have : i = 0 := by omega
      subst this
      rfl)
    rfl
  exact ⟨h1.trans (by rfl), h2⟩

/-- `l` is a Boolean prefix of `l ++ t`. -/
theorem isPrefixOf_append_self (l t : List Char) : l.isPrefixOf (l ++ t) = true := by
  induction l with
  | nil => simp
  | cons c cs ih => simp [List.isPrefixOf, ih]

/-- `split("/", 1)` on `a ++ "/" ++ b` cuts exactly at the first slash when
`a` is slash-free. -/
theorem splitOnce_slash_append (a b : List Char) (h : '/' ∉ a) :
    splitOnce '/' (a ++ '/' :: b) = some (a, b) := by
  induction a with
  | nil => simp [splitOnce]
  | cons c cs ih =>
    have hc : ¬ c = '/' := fun hh => h (hh ▸ List.mem_cons_self c cs)
    have hcs : '/' ∉ cs := fun hm => h (List.mem_cons_of_mem c hm)
    simp [splitOnce, hc, ih hcs]

theorem s3_url_data (bucket key : String) :
    ("s3://" ++ bucket ++ "/" ++ key).data
      = 's' :: '3' :: ':' :: '/' :: '/' :: (bucket.data ++ '/' :: key.data) := by
  rw [strData_append, strData_append, strData_append]
  rw [show ("s3://" : String).data = ['s', '3', ':', '/', '/'] from rfl,
      show ("/" : String).data = ['/'] from rfl]
  simp

/-- C10: for an `s3://bucket/key` locator whose bucket component is
slash-free, both `_download_file` and the image-OCR request read from the
single configured bucket using only the key component — the bucket named in
the locator is ignored (it does not occur in the result). -/
theorem s3_locator_uses_configured_bucket (cfg bucket key : String)
    (hb : '/' ∉ bucket.data) :
    downloadRequest cfg ("s3://" ++ bucket ++ "/" ++ key) = DownloadReq.s3Get cfg key ∧
    imageOcrRequest cfg ("s3://" ++ bucket ++ "/" ++ key) = (cfg, key) := by
  have hdata := s3_url_data bucket key
  have hpre : ("s3://" : String).data.isPrefixOf ("s3://" ++ bucket ++ "/" ++ key).data
      = true := by
    rw [hdata]
    exact isPrefixOf_append_self "s3://".data (bucket.data ++ '/' :: key.data)
  have hkey : parseS3Key ("s3://" ++ bucket ++ "/" ++ key) = key := by
    unfold parseS3Key
    rw [if_pos hpre, hdata]
    show (match splitOnce '/' (bucket.data ++ '/' :: key.data) with
          | some (_, k) => String.mk k
          | Option.none => "") = key
    rw [splitOnce_slash_append bucket.data key.data hb]
  constructor
  · unfold downloadRequest
    rw [if_pos hpre, hkey]
  · unfold imageOcrRequest
    rw [hkey]

/-- Witness for C10: the bucket named in the locator differs from the
configured one and does not appear in either request. -/
theorem s3_locator_uses_configured_bucket_witness :
    downloadRequest "configured-bucket" "s3://other-bucket/uploads/doc.png"
      = DownloadReq.s3Get "configured-bucket" "uploads/doc.png" ∧
    imageOcrRequest "configured-bucket" "s3://other-bucket/uploads/doc.png"
      = ("configured-bucket", "uploads/doc.png") := by
  have h := s3_locator_uses_configured_bucket "configured-bucket" "other-bucket"
    "uploads/doc.png" (by decide)
  rw [show ("s3://" ++ "other-bucket" ++ "/" ++ "uploads/doc.png" : String)
        = "s3://other-bucket/uploads/doc.png" from rfl] at h
  exact h

/-- C5 counterexample: a cell holding the number 0 is a non-empty cell
(openpyxl reads `None` for empty cells), yet its string coercion "0" is not a
substring of the extractor's output — `str(cell.value) if cell.value else ""`
coerces every falsy value, not just missing cells, to the empty string, and
the row is then dropped as empty. -/
theorem excel_zero_cell_counterexample :
    CellValue.int 0 ≠ CellValue.none ∧
    extract_excel_from_bytes [("S", [[CellValue.int 0]])] = "=== Sheet: S ===" ∧
    ¬ ((pyStr (CellValue.int 0)).data <:+:
        (extract_excel_from_bytes [("S", [[CellValue.int 0]])]).data) := by
  refine ⟨by decide, rfl, ?_⟩
  decide

/-- C5 (amended): for every workbook, every cell whose value is truthy
(non-empty and not falsy like `0`, `False` or `""`) has its string coercion
contained in the spreadsheet extractor's output as a substring; the output is
one header marker line per sheet followed by one line per non-empty row,
cells joined with `" | "`, falsy cells rendered as empty strings. -/
theorem excel_truthy_cell_substring (wb : Workbook) (name : String)
    (rows : List (List CellValue)) (row : List CellValue) (c : CellValue)
    (hs : (name, rows) ∈ wb) (hr : row ∈ rows) (hc : c ∈ row)
    (ht : cellTruthy c = true) :
    (pyStr c).data <:+: (extract_excel_from_bytes wb).data := by
  by_cases h0 : pyStr c = ""
  · rw [h0]
    exact ⟨[], (extract_excel_from_bytes wb).data, by simp⟩
  · have hmem : pyStr c ∈ row.map cellStr :=
      List.mem_map.mpr ⟨c, hc, by simp [cellStr, ht]⟩
    have hany : (row.map cellStr).any (fun v => !(v == "")) = true :=
      List.any_eq_true.mpr ⟨pyStr c, hmem, by simp [h0]⟩
    have hline : rowLine row = some (joinSep " | " (row.map cellStr)) := by
      unfold rowLine
      rw [if_pos hany]
    have h1 : (pyStr c).data <:+: (joinSep " | " (row.map cellStr)).data :=
      infix_of_mem_joinSep " | " (row.map cellStr) (pyStr c) hmem
    have hlinemem : joinSep " | " (row.map cellStr) ∈ sheetLines (name, rows) :=
      List.mem_cons.mpr (Or.inr (List.mem_filterMap.mpr ⟨row, hr, hline⟩))
    have hpartmem : joinSep " | " (row.map cellStr) ∈ (wb.map sheetLines).flatten :=
      List.mem_flatten.mpr ⟨sheetLines (name, rows), List.mem_map_of_mem sheetLines hs, hlinemem⟩
    have h2 : (joinSep " | " (row.map cellStr)).data
        <:+: (joinSep "\n" (wb.map sheetLines).flatten).data :=
      infix_of_mem_joinSep "\n" _ _ hpartmem
    exact h1.trans h2

/-- Witness for C5 at a one-sheet workbook with a truthy string cell. -/
theorem excel_truthy_cell_substring_witness :
    cellTruthy (CellValue.str "Widget") = true ∧
    (pyStr (CellValue.str "Widget")).data <:+:
      (extract_excel_from_bytes
        [("Costs", [[CellValue.str "Widget", CellValue.int 5]])]).data := by
  refine ⟨rfl, ?_⟩
  exact excel_truthy_cell_substring
    [("Costs", [[CellValue.str "Widget", CellValue.int 5]])] "Costs"
    [[CellValue.str "Widget", CellValue.int 5]] [CellValue.str "Widget", CellValue.int 5]
    (CellValue.str "Widget") (by simp) (by simp) (by simp) rfl

theorem finishParse_falsy (parse : String → Dict) (pc : Call) (raw : Option String)
    (tr : List Call) (h : rawFalsy raw) :
    (finishParse parse pc raw tr).1 = Envelope.failure "Could not extract text from document" := by
  rcases h with rfl | rfl
  · rfl
  · rfl

theorem fromBytesAfter_falsy (env : Env) (raw : Option String) (docType : String)
    (h : rawFalsy raw) :
    (fromBytesAfter env raw docType).1
      = Envelope.failure "Could not extract text from document" := by
  rcases h with rfl | rfl
  · rfl
  · rfl

/-- C8: for every locator whose query-stripped, lower-cased extension is not
a supported one, `extract_purchase_order` fails with exactly
`"Unsupported file type: <ext>"` and an empty call trace — no fetch,
extraction, OCR or LLM component is ever invoked. -/
theorem unsupported_extension_fails_without_calls (env : Env) (url : String)
    (h : getExtension url ∉
      ([".xlsx", ".xls", ".docx", ".doc", ".pdf", ".png", ".jpg", ".jpeg"] : List String)) :
    extract_purchase_order env url
      = (Envelope.failure ("Unsupported file type: " ++ getExtension url), []) := by
  simp only [List.mem_cons, List.not_mem_nil, or_false] at h
  push_neg at h
  obtain ⟨h1, h2, h3, h4, h5, h6, h7, h8⟩ := h
  unfold extract_purchase_order
  have c1 : ¬ getExtension url ∈ ([".xlsx", ".xls"] : List String) := by simp [h1, h2]
  have c2 : ¬ getExtension url ∈ ([".docx", ".doc"] : List String) := by simp [h3, h4]
  have c4 : ¬ getExtension url ∈ ([".png", ".jpg", ".jpeg"] : List String) := by
    simp [h6, h7, h8]
  rw [if_neg c1, if_neg c2, if_neg h5, if_neg c4]

/-- Witness for C8: a `.txt` locator fails with exactly
`"Unsupported file type: .txt"` and no component call. -/
theorem unsupported_extension_fails_without_calls_witness :
    getExtension "https://cdn.example.com/docs/notes.txt" = ".txt" ∧
    extract_purchase_order envEmpty "https://cdn.example.com/docs/notes.txt"
      = (Envelope.failure "Unsupported file type: .txt", []) := by
  refine ⟨rfl, ?_⟩
  have h := unsupported_extension_fails_without_calls envEmpty
    "https://cdn.example.com/docs/notes.txt" (by decide)
  exact h

/-- C2 (amended): `extract_purchase_order`, `extract_invoice` and
`extract_from_bytes` return the
`{success: false, error: "Could not extract text from document"}` envelope
whenever the selected extractor yields empty or absent text;
`extract_milestones` performs no such check (see the counterexample). -/
theorem empty_text_failure_envelope :
    (∀ (env : Env) (url : String),
        getExtension url ∈
          ([".xlsx", ".xls", ".docx", ".doc", ".pdf", ".png", ".jpg", ".jpeg"] : List String) →
        rawFalsy (selectedRaw env (getExtension url)) →
        (extract_purchase_order env url).1
          = Envelope.failure "Could not extract text from document") ∧
    (∀ (env : Env) (url : String),
        getExtension url ∈
          ([".xlsx", ".xls", ".docx", ".doc", ".pdf", ".png", ".jpg", ".jpeg"] : List String) →
        rawFalsy (selectedRaw env (getExtension url)) →
        (extract_invoice env url).1
          = Envelope.failure "Could not extract text from document") ∧
    (∀ (env : Env) (fb : FileBytes) (filename docType : String),
        pyLower (pathSuffix filename) ∈
          ([".xlsx", ".xls", ".docx", ".doc", ".pdf"] : List String) →
        rawFalsy (selectedBytesRaw fb (pyLower (pathSuffix filename))) →
        (extract_from_bytes env fb filename docType).1
          = Envelope.failure "Could not extract text from document") := by
  refine ⟨?_, ?_, ?_⟩
  · intro env url hmem hfalsy
    simp only [List.mem_cons, List.not_mem_nil, or_false] at hmem
    rcases hmem with h | h | h | h | h | h | h | h <;>
      (unfold extract_purchase_order
       rw [h] at hfalsy ⊢
       exact finishParse_falsy _ _ _ _ hfalsy)
  · intro env url hmem hfalsy
    simp only [List.mem_cons, List.not_mem_nil, or_false] at hmem
    rcases hmem with h | h | h | h | h | h | h | h <;>
      (unfold extract_invoice
       rw [h] at hfalsy ⊢
       exact finishParse_falsy _ _ _ _ hfalsy)
  · intro env fb filename docType hmem hfalsy
    simp only [List.mem_cons, List.not_mem_nil, or_false] at hmem
    rcases hmem with h | h | h | h | h <;>
      (unfold extract_from_bytes
       rw [h] at hfalsy ⊢
       exact fromBytesAfter_falsy _ _ _ hfalsy)

/-- Witness for C2: failed extraction in all three checked entry points, in
particular `extract_from_bytes` on empty byte content with a `.docx`
filename. -/
theorem empty_text_failure_envelope_witness :
    (extract_purchase_order envEmpty "https://x.example.com/po.xlsx").1
      = Envelope.failure "Could not extract text from document" ∧
    (extract_invoice envEmpty "https://x.example.com/inv.pdf").1
      = Envelope.failure "Could not extract text from document" ∧
    (extract_from_bytes envEmpty emptyFileBytes "upload.docx" "purchase_order").1
      = Envelope.failure "Could not extract text from document" := by
  obtain ⟨h1, h2, h3⟩ := empty_text_failure_envelope
  exact ⟨h1 envEmpty "https://x.example.com/po.xlsx" (by decide) (Or.inl rfl),
         h2 envEmpty "https://x.example.com/inv.pdf" (by decide) (Or.inl rfl),
         h3 envEmpty emptyFileBytes "upload.docx" "purchase_order" (by decide) (Or.inl rfl)⟩

/-- C2 counterexample: `extract_milestones` on a PDF whose extraction yields
no text does not return the `"Could not extract text from document"`
envelope — the `None` text reaches the milestone prompt's slicing and the
entry point reports the `TypeError` text instead. -/
theorem extract_milestones_empty_text_counterexample :
    (extract_milestones envMilestones "https://x.example.com/schedule.pdf").1
      = Envelope.failure "'NoneType' object is not subscriptable" ∧
    (extract_milestones envMilestones "https://x.example.com/schedule.pdf").1
      ≠ Envelope.failure "Could not extract text from document" := by
  refine ⟨rfl, ?_⟩
  intro hcontra
  have h : Envelope.failure "'NoneType' object is not subscriptable"
      = Envelope.failure "Could not extract text from document" :=
    (rfl : (extract_milestones envMilestones "https://x.example.com/schedule.pdf").1
      = Envelope.failure "'NoneType' object is not subscriptable").symm.trans hcontra
  injection h with h'
  exact absurd h' (by decide)

theorem finishParse_some (parse : String → Dict) (pc : Call) (t : String) (tr : List Call) :
    finishParse parse pc (some t) tr
      = if t = "" then (Envelope.failure "Could not extract text from document", tr)
        else (Envelope.success (dictSet (parse t) "raw_text" (JValue.str (pyTake 5000 t))),
          tr ++ [pc]) := rfl

theorem fromBytesAfter_some (env : Env) (t docType : String) :
    fromBytesAfter env (some t) docType
      = if t = "" then (Envelope.failure "Could not extract text from document", [])
        else if docType = "purchase_order" then
          (Envelope.success (dictSet (env.llmPo t) "raw_text" (JValue.str (pyTake 5000 t))),
            [Call.parsePo])
        else if docType = "invoice" then
          (Envelope.success (dictSet (env.llmInvoice t) "raw_text" (JValue.str (pyTake 5000 t))),
            [Call.parseInvoice])
        else if docType = "milestone" then
          (Envelope.success (dictSet [("milestones", env.llmMilestones t)] "raw_text"
            (JValue.str (pyTake 5000 t))), [Call.parseMilestones])
        else (Envelope.failure ("Unknown document type: " ++ docType), []) := rfl

theorem finishParse_success (parse : String → Dict) (pc : Call) (raw : Option String)
    (tr tr' : List Call) (d : Dict)
    (h : finishParse parse pc raw tr = (Envelope.success d, tr')) :
    ∃ t, raw = some t ∧ d = dictSet (parse t) "raw_text" (JValue.str (pyTake 5000 t)) := by
  cases raw with
  | none => simp [finishParse] at h
  | some t =>
    by_cases ht : t = ""
    · subst ht
      simp [finishParse] at h
    · refine ⟨t, rfl, ?_⟩
      rw [finishParse_some, if_neg ht] at h
      simp only [Prod.mk.injEq, Envelope.success.injEq] at h
      exact h.1.symm

theorem fromBytesAfter_success (env : Env) (raw : Option String) (docType : String)
    (d : Dict) (tr : List Call)
    (h : fromBytesAfter env raw docType = (Envelope.success d, tr)) :
    ∃ t, raw = some t ∧ lookupKey d "raw_text" = some (JValue.str (pyTake 5000 t)) := by
  cases raw with
  | none => simp [fromBytesAfter] at h
  | some t =>
    refine ⟨t, rfl, ?_⟩
    rw [fromBytesAfter_some] at h
    by_cases h0 : t = ""
    · rw [if_pos h0] at h
      simp at h
    · rw [if_neg h0] at h
      by_cases h1 : docType = "purchase_order"
      · rw [if_pos h1] at h
        simp only [Prod.mk.injEq, Envelope.success.injEq] at h
        rw [← h.1]
        exact lookupKey_dictSet _ _ _
      · rw [if_neg h1] at h
        by_cases h2 : docType = "invoice"
        · rw [if_pos h2] at h
          simp only [Prod.mk.injEq, Envelope.success.injEq] at h
          rw [← h.1]
          exact lookupKey_dictSet _ _ _
        · rw [if_neg h2] at h
          by_cases h3 : docType = "milestone"
          · rw [if_pos h3] at h
            simp only [Prod.mk.injEq, Envelope.success.injEq] at h
            rw [← h.1]
            exact lookupKey_dictSet _ _ _
          · rw [if_neg h3] at h
            simp at h

/-- C9 (amended): every successful `extract_purchase_order`,
`extract_invoice` and `extract_from_bytes` call attaches a `raw_text` field
equal to the first 5,000 characters of the raw extracted text;
`extract_milestones` attaches none (see the counterexample). -/
theorem raw_text_truncated_attached :
    (∀ (env : Env) (url : String) (d : Dict) (tr : List Call),
        extract_purchase_order env url = (Envelope.success d, tr) →
        ∃ t, selectedRaw env (getExtension url) = some t ∧
          lookupKey d "raw_text" = some (JValue.str (pyTake 5000 t))) ∧
    (∀ (env : Env) (url : String) (d : Dict) (tr : List Call),
        extract_invoice env url = (Envelope.success d, tr) →
        ∃ t, selectedRaw env (getExtension url) = some t ∧
          lookupKey d "raw_text" = some (JValue.str (pyTake 5000 t))) ∧
    (∀ (env : Env) (fb : FileBytes) (filename docType : String) (d : Dict) (tr : List Call),
        extract_from_bytes env fb filename docType = (Envelope.success d, tr) →
        ∃ t, selectedBytesRaw fb (pyLower (pathSuffix filename)) = some t ∧
          lookupKey d "raw_text" = some (JValue.str (pyTake 5000 t))) := by
  refine ⟨?_, ?_, ?_⟩
  · intro env url d tr h
    unfold extract_purchase_order at h
    by_cases c1 : getExtension url ∈ ([".xlsx", ".xls"] : List String)
    · rw [if_pos c1] at h
      obtain ⟨t, ht, hd⟩ := finishParse_success _ _ _ _ _ _ h
      refine ⟨t, ?_, ?_⟩
      · unfold selectedRaw
        rw [if_pos c1]
        exact ht
      · rw [hd]
        exact lookupKey_dictSet _ _ _
    · rw [if_neg c1] at h
      by_cases c2 : getExtension url ∈ ([".docx", ".doc"] : List String)
      · rw [if_pos c2] at h
        obtain ⟨t, ht, hd⟩ := finishParse_success _ _ _ _ _ _ h
        refine ⟨t, ?_, ?_⟩
        · unfold selectedRaw
          rw [if_neg c1, if_pos c2]
          exact ht
        · rw [hd]
          exact lookupKey_dictSet _ _ _
      · rw [if_neg c2] at h
        by_cases c3 : getExtension url = ".pdf"
        · rw [if_pos c3] at h
          obtain ⟨t, ht, hd⟩ := finishParse_success _ _ _ _ _ _ h
          refine ⟨t, ?_, ?_⟩
          · unfold selectedRaw
            rw [if_neg c1, if_neg c2, if_pos c3]
            exact ht
          · rw [hd]
            exact lookupKey_dictSet _ _ _
        · rw [if_neg c3] at h
          by_cases c4 : getExtension url ∈ ([".png", ".jpg", ".jpeg"] : List String)
          · rw [if_pos c4] at h
            obtain ⟨t, ht, hd⟩ := finishParse_success _ _ _ _ _ _ h
            refine ⟨t, ?_, ?_⟩
            · unfold selectedRaw
              rw [if_neg c1, if_neg c2, if_neg c3, if_pos c4]
              exact ht
            · rw [hd]
              exact lookupKey_dictSet _ _ _
          · rw [if_neg c4] at h
            simp at h
  · intro env url d tr h
    unfold extract_invoice at h
    by_cases c1 : getExtension url ∈ ([".xlsx", ".xls"] : List String)
    · rw [if_pos c1] at h
      obtain ⟨t, ht, hd⟩ := finishParse_success _ _ _ _ _ _ h
      refine ⟨t, ?_, ?_⟩
      · unfold selectedRaw
        rw [if_pos c1]
        exact ht
      · rw [hd]
        exact lookupKey_dictSet _ _ _
    · rw [if_neg c1] at h
      by_cases c2 : getExtension url ∈ ([".docx", ".doc"] : List String)
      · rw [if_pos c2] at h
        obtain ⟨t, ht, hd⟩ := finishParse_success _ _ _ _ _ _ h
        refine ⟨t, ?_, ?_⟩
        · unfold selectedRaw
          rw [if_neg c1, if_pos c2]
          exact ht
        · rw [hd]
          exact lookupKey_dictSet _ _ _
      · rw [if_neg c2] at h
        by_cases c3 : getExtension url = ".pdf"
        · rw [if_pos c3] at h
          obtain ⟨t, ht, hd⟩ := finishParse_success _ _ _ _ _ _ h
          refine ⟨t, ?_, ?_⟩
          · unfold selectedRaw
            rw [if_neg c1, if_neg c2, if_pos c3]
            exact ht
          · rw [hd]
            exact lookupKey_dictSet _ _ _
        · rw [if_neg c3] at h
          by_cases c4 : getExtension url ∈ ([".png", ".jpg", ".jpeg"] : List String)
          · rw [if_pos c4] at h
            obtain ⟨t, ht, hd⟩ := finishParse_success _ _ _ _ _ _ h
            refine ⟨t, ?_, ?_⟩
            · unfold selectedRaw
              rw [if_neg c1, if_neg c2, if_neg c3, if_pos c4]
              exact ht
            · rw [hd]
              exact lookupKey_dictSet _ _ _
          · rw [if_neg c4] at h
            simp at h
  · intro env fb filename docType d tr h
    unfold extract_from_bytes at h
    by_cases c1 : pyLower (pathSuffix filename) ∈ ([".xlsx", ".xls"] : List String)
    · rw [if_pos c1] at h
      obtain ⟨t, ht, hl⟩ := fromBytesAfter_success _ _ _ _ _ h
      refine ⟨t, ?_, hl⟩
      unfold selectedBytesRaw
      rw [if_pos c1]
      exact ht
    · rw [if_neg c1] at h
      by_cases c2 : pyLower (pathSuffix filename) ∈ ([".docx", ".doc"] : List String)
      · rw [if_pos c2] at h
        obtain ⟨t, ht, hl⟩ := fromBytesAfter_success _ _ _ _ _ h
        refine ⟨t, ?_, hl⟩
        unfold selectedBytesRaw
        rw [if_neg c1, if_pos c2]
        exact ht
      · rw [if_neg c2] at h
        by_cases c3 : pyLower (pathSuffix filename) = ".pdf"
        · rw [if_pos c3] at h
          obtain ⟨t, ht, hl⟩ := fromBytesAfter_success _ _ _ _ _ h
          refine ⟨t, ?_, hl⟩
          unfold selectedBytesRaw
          rw [if_neg c1, if_neg c2, if_pos c3]
          exact ht
        · rw [if_neg c3] at h
          simp at h

/-- Witness for C9: a successful purchase-order extraction carries
`raw_text` equal to the (short, hence untruncated) extracted text. -/
theorem raw_text_truncated_attached_witness :
    lookupKey [("po_number", JValue.null), ("raw_text", JValue.str "PO text")] "raw_text"
      = some (JValue.str (pyTake 5000 "PO text")) := by
  obtain ⟨t, ht, hl⟩ := raw_text_truncated_attached.1 envPoText "https://x.example.com/po.xlsx"
    [("po_number", JValue.null), ("raw_text", JValue.str "PO text")]
    [Call.extractExcel, Call.parsePo] rfl
  have h2 : some t = some "PO text" := by
    rw [← ht]
    rfl
  cases h2
  exact hl

/-- C9 counterexample: a successful `extract_milestones` call returns data
with no `raw_text` field at all. -/
theorem extract_milestones_no_raw_text_counterexample :
    (extract_milestones envMilestones "https://x.example.com/schedule.xlsx").1
      = Envelope.success [("milestones", JValue.list
          [milestoneToJ ⟨"Mobilization", Option.none, Option.none, 10⟩])] ∧
    lookupKey [("milestones", JValue.list
          [milestoneToJ ⟨"Mobilization", Option.none, Option.none, 10⟩])] "raw_text"
      = Option.none :=
  ⟨rfl, rfl⟩

end Infradyn
